import Mathlib

/-!
# Verification of the conversation continuation and logging subsystem

A shallow embedding of the core of `llm/cli.py`: the `prompt` command flow
(lines 118-174), `get_history` (lines 443-463) and `log` (lines 397-420),
together with the SQLite `log` table they read and write.

Modelling conventions:
* The `log` table is a `Store`: a flag recording whether the backing
  `logs.db` file exists, plus the list of rows in insertion order.
* SQLite assigns `id` (the rowid) as one more than the maximum existing
  rowid, modelled by `nextId`.
* SQL `ORDER BY id` is modelled by an insertion sort on the `id` field.
* Python truthiness of the optional integer `chat_id` and of optional
  strings is modelled explicitly (`truthyInt`, `truthyStr`, `orFalsy`):
  `None`, `0` and `""` are falsy.
* The `migrate(db)` call adjusts only the table schema; its source file
  (`llm/migrations.py`) is not part of the snapshot.  Modelled from the
  spec: the persisted layout is a single append-only table of exchange
  records, so migration is the identity on the logical row list and is
  therefore not represented.
* The remote OpenAI call is an external collaborator; an invocation is
  modelled as a function of the outcome of that call
  (`Except ApiError String`, the joined response content on success).
-/

/-- One row of the `log` table, as written by `log` in cli.py.
The `timestamp`, `debug` and `duration_ms` columns are omitted: no claim
observes them and they do not influence any control flow. -/
structure Row where
  id : Int
  chat_id : Option Int
  system : Option String
  prompt : String
  response : String
  model : String
deriving DecidableEq, Repr

/-- The Log Store: whether the backing `logs.db` file exists
(`log_db_path().exists()` in cli.py), and the rows of the `log` table. -/
structure Store where
  dbExists : Bool
  rows : List Row
deriving DecidableEq, Repr

/-- A role-tagged message sent to the remote model (an element of the
`messages` list built in `prompt`, cli.py lines 118-136). -/
structure Message where
  role : String
  content : String
deriving DecidableEq, Repr

/-- cli.py line 21. -/
def DEFAULT_MODEL : String := "gpt-3.5-turbo"

/-- cli.py lines 23-30. -/
def MODEL_ALIASES : List (String × String) :=
  [("4", "gpt-4"),
   ("gpt4", "gpt-4"),
   ("chatgpt", "gpt-3.5-turbo"),
   ("3.5", "gpt-3.5-turbo"),
   ("chatgpt-16k", "gpt-3.5-turbo-16k"),
   ("3.5-16k", "gpt-3.5-turbo-16k")]

/-- Embeds `MODEL_ALIASES.get(model, model)` (cli.py line 141). -/
def aliasLookup (m : String) : String :=
  (MODEL_ALIASES.lookup m).getD m

/-- The errors the embedded flow raises as `click.ClickException`. -/
inductive ApiError where
  /-- Embeds `openai.error.AuthenticationError`, re-raised at cli.py line 172. -/
  | authenticationError (errType errCode : String)
  /-- any other `openai.error.OpenAIError`, re-raised at cli.py line 174. -/
  | openAIError (msg : String)
deriving DecidableEq, Repr

/-- The distinct `click.ClickException` outcomes of the embedded flow. -/
inductive CliError where
  /-- The message "Cannot use --continue and --chat together"
  (cli.py line 122). -/
  | conflictingContinuation
  /-- The message "This feature requires logging. Run `llm init-db` to
  create logs.db" (cli.py lines 448-450). -/
  | loggingRequired
  /-- a remote-call failure surfaced to the user (cli.py lines 171-174). -/
  | api (e : ApiError)
deriving DecidableEq, Repr

/-- Python truthiness of an optional integer: `None` and `0` are falsy. -/
def truthyInt : Option Int → Bool
  | none => false
  | some v => v != 0

/-- Python truthiness of an optional string: `None` and `""` are falsy. -/
def truthyStr : Option String → Bool
  | none => false
  | some s => s != ""

/-- Python `a or b` for an optional integer `a` (used at cli.py line 457:
`last_row[0].get("chat_id") or last_row[0].get("id")`). -/
def orFalsy (a : Option Int) (b : Int) : Int :=
  match a with
  | some v => if v = 0 then b else v
  | none => b

/-- Comparison of rows by `id`, the order of SQL `ORDER BY id`. -/
def rowLe (a b : Row) : Prop := a.id ≤ b.id

instance : DecidableRel rowLe := fun a b => inferInstanceAs (Decidable (a.id ≤ b.id))

instance : IsTotal Row rowLe := ⟨fun a b => Int.le_total a.id b.id⟩

instance : IsTrans Row rowLe := ⟨fun _ _ _ h1 h2 => le_trans h1 h2⟩

/-- SQL `ORDER BY id` on a list of rows. -/
def sortById (l : List Row) : List Row := List.insertionSort rowLe l

/-- The maximum `id` among `rows` (0 when empty). -/
def maxId : List Row → Int
  | [] => 0
  | r :: rs => max r.id (maxId rs)

/-- The rowid SQLite assigns to the next inserted row: one more than the
maximum existing rowid. -/
def nextId (rows : List Row) : Int := maxId rows + 1

/-- Embeds `db["log"].insert({...})` (cli.py lines 409-420): append a new row with
the next rowid.  Requires the caller to have checked that the backing file
exists; the `Store` itself is otherwise unchanged. -/
def insertRow (s : Store) (chat_id : Option Int) (system : Option String)
    (prompt response model : String) : Store :=
  { s with rows := s.rows ++
      [{ id := nextId s.rows, chat_id := chat_id, system := system,
         prompt := prompt, response := response, model := model }] }

/-- The disjunctive conversation query of cli.py lines 460-462:
`rows_where("id = ? or chat_id = ?", [chat_id, chat_id], order_by="id")`.
This is the `exchangesFor` operation of the Log Store. -/
def exchangesFor (s : Store) (c : Int) : List Row :=
  sortById (s.rows.filter fun r => decide (r.id = c ∨ r.chat_id = some c))

/-- The most-recent-conversation lookup of cli.py lines 455-457:
the row with the highest `id` (`rows_where(order_by="-id", limit=1)`),
then `chat_id or id` on it; `none` when the table is empty. -/
def mostRecentConversation (s : Store) : Option Int :=
  match (sortById s.rows).getLast? with
  | some last => some (orFalsy last.chat_id last.id)
  | none => none

/-- Embeds `get_history` (cli.py lines 443-463).  `chat_id = some (-1)` is the
continue-most-recent sentinel installed by the continue flag. -/
def get_history (s : Store) (chat_id : Option Int) :
    Except CliError (Option Int × List Row) :=
  match chat_id with
  | none => Except.ok (none, [])
  | some cid =>
    if s.dbExists = false then
      Except.error CliError.loggingRequired
    else if cid = -1 then
      match mostRecentConversation s with
      | some c => Except.ok (some c, exchangesFor s c)
      | none => Except.ok (none, [])
    else
      Except.ok (some cid, exchangesFor s cid)

/-- The per-entry system message of cli.py lines 129-130 and the trailing
system message of lines 134-135: emitted only when truthy (non-`None`,
non-empty). -/
def systemMessages (sys : Option String) : List Message :=
  match sys with
  | some s => if s != "" then [⟨"system", s⟩] else []
  | none => []

/-- The history replay loop of cli.py lines 128-132: per prior exchange,
an optional system message, then its prompt and its response. -/
def historyMessages : List Row → List Message
  | [] => []
  | entry :: rest =>
    systemMessages entry.system
      ++ [⟨"user", entry.prompt⟩, ⟨"assistant", entry.response⟩]
      ++ historyMessages rest

/-- The Message Builder (cli.py lines 118-136): replayed history, then the
new system prompt when truthy, then the new user prompt. -/
def build_messages (history : List Row) (system : Option String)
    (prompt : String) : List Message :=
  historyMessages history ++ systemMessages system ++ [⟨"user", prompt⟩]

/-- Embeds `history_model` after the loop of cli.py lines 126-133: the `model`
of the last history entry, `none` when the history is empty. -/
def history_model (history : List Row) : Option String :=
  history.getLast?.map Row.model

/-- The model resolution of cli.py lines 137-141:
`model = history_model or DEFAULT_MODEL` when no model was requested,
otherwise alias resolution on the requested model. -/
def choose_model (model : Option String) (history : List Row) : String :=
  match model with
  | some m => aliasLookup m
  | none =>
    match history_model history with
    | some m => if m = "" then DEFAULT_MODEL else m
    | none => DEFAULT_MODEL

/-- The Exchange Recorder: `log` (cli.py lines 397-420).  Returns the
store unchanged when logging is suppressed (the no-log flag) or the backing
file does not exist; otherwise appends one row. -/
def log (no_log : Bool) (system : Option String) (prompt response model : String)
    (chat_id : Option Int) (s : Store) : Store :=
  if no_log then s
  else if s.dbExists = false then s
  else insertRow s chat_id system prompt response model

/-- The continuation-flag resolution of cli.py lines 119-124: when the
continue flag is truthy it becomes the sentinel `-1`, and a truthy
explicit `--chat` id alongside it raises; otherwise the explicit `--chat`
id (possibly `None`) is used. -/
def resolve_continuation (_continue : Bool) (chat_id : Option Int) :
    Except CliError (Option Int) :=
  if _continue then
    if truthyInt chat_id then Except.error CliError.conflictingContinuation
    else Except.ok (some (-1))
  else Except.ok chat_id

instance {ε α : Type} [DecidableEq ε] [DecidableEq α] : DecidableEq (Except ε α) :=
  fun x y =>
    match x, y with
    | Except.ok a, Except.ok b => decidable_of_iff (a = b) (by simp)
    | Except.error e, Except.error f => decidable_of_iff (e = f) (by simp)
    | Except.ok _, Except.error _ => isFalse (by simp)
    | Except.error _, Except.ok _ => isFalse (by simp)

/-- Outcome of one embedded invocation of the `prompt` command:
what it prints or raises, the resulting store, and the request sent to
the remote model (`none` when no remote call was made). -/
structure PromptResult where
  output : Except CliError String
  store : Store
  call : Option (String × List Message)
deriving DecidableEq, Repr

/-- The core of the `prompt` command (cli.py lines 118-174), after the
external glue (stdin, templates, key lookup) has produced the final
`prompt`, `system` and `model` arguments.  `api` is the outcome of the
remote OpenAI call: the full response content on success, or the raised
`openai.error` exception. -/
def runPrompt (s : Store) (prompt : String) (system : Option String)
    (model : Option String) (no_stream no_log _continue : Bool)
    (chat_id : Option Int) (api : Except ApiError String) : PromptResult :=
  match resolve_continuation _continue chat_id with
  | Except.error e => ⟨Except.error e, s, none⟩
  | Except.ok cont =>
    match get_history s cont with
    | Except.error e => ⟨Except.error e, s, none⟩
    | Except.ok (chat_id2, history) =>
      let messages := build_messages history system prompt
      let model := choose_model model history
      match api with
      | Except.error e => ⟨Except.error (CliError.api e), s, some (model, messages)⟩
      | Except.ok content =>
        -- The two branches of cli.py lines 144-170 differ only in
        -- terminal streaming and the debug payload, neither of which the
        -- Row model records; both call `log` with the same data.
        if no_stream then
          ⟨Except.ok content, log no_log system prompt content model chat_id2 s,
            some (model, messages)⟩
        else
          ⟨Except.ok content, log no_log system prompt content model chat_id2 s,
            some (model, messages)⟩

/-- A store whose backing file exists and holds no rows (the state right
after `llm init-db` on a fresh machine). -/
def emptyStore : Store := ⟨true, []⟩

/-- The data of one exchange to be appended, `id` and grouping left to
the store. -/
structure ExchangeData where
  system : Option String
  prompt : String
  response : String
  model : String
deriving DecidableEq, Repr

/-- Append a sequence of exchanges with no explicit conversation grouping
(`chat_id` absent on every record). -/
def appendAll (s : Store) (xs : List ExchangeData) : Store :=
  xs.foldl (fun acc d => insertRow acc none d.system d.prompt d.response d.model) s

/-! ## Claim theorems -/

/-- C1 counterexample: with the continue flag set and the explicit chat id
`0` also supplied, the invocation does not fail with
`ConflictingContinuation` — Python truthiness treats `--chat 0` as absent
(cli.py line 121), so the run proceeds as continue-most-recent. -/
theorem c1_counterexample :
    (runPrompt emptyStore "hi" none none false false true (some 0)
        (Except.ok "resp")).output
      ≠ Except.error CliError.conflictingContinuation := by decide

/-- C1 (amended): supplying the continue-most-recent flag together with a
non-zero explicit chat id always fails with `ConflictingContinuation`,
leaving the store untouched and making no remote call. -/
theorem c1_conflicting_continuation (s : Store) (p : String) (sys m : Option String)
    (nstream nlog : Bool) (cid : Int) (api : Except ApiError String)
    (h : cid ≠ 0) :
    runPrompt s p sys m nstream nlog true (some cid) api
      = ⟨Except.error CliError.conflictingContinuation, s, none⟩ := by
  simp [runPrompt, resolve_continuation, truthyInt, h]

/-- C1 witness: the amended theorem at chat id 3. -/
theorem c1_conflicting_continuation_witness :
    (3 : Int) ≠ 0 ∧
      runPrompt emptyStore "hi" none none false false true (some 3) (Except.ok "resp")
        = ⟨Except.error CliError.conflictingContinuation, emptyStore, none⟩ :=
  ⟨by decide,
    c1_conflicting_continuation emptyStore "hi" none none false false 3
      (Except.ok "resp") (by decide)⟩

/-- C3: a continue-most-recent request against a store whose backing file
exists but holds no rows resolves to `(None, [])` without an error. -/
theorem c3_continue_recent_empty_store (s : Store) (hdb : s.dbExists = true)
    (hrows : s.rows = []) :
    get_history s (some (-1)) = Except.ok (none, []) := by
  simp [get_history, hdb, mostRecentConversation, sortById, hrows,
    List.insertionSort]

/-- C3 witness: the theorem at the freshly initialised store. -/
theorem c3_continue_recent_empty_store_witness :
    emptyStore.dbExists = true ∧ emptyStore.rows = [] ∧
      get_history emptyStore (some (-1)) = Except.ok (none, []) :=
  ⟨rfl, rfl, c3_continue_recent_empty_store emptyStore rfl rfl⟩

/-- C5: when the remote call fails (authentication or any other provider
error), no record is made: the store after the invocation equals the store
before it, for every combination of the other inputs, streaming included. -/
theorem c5_failed_call_no_record (s : Store) (p : String) (sys m : Option String)
    (nstream nlog cont : Bool) (cid : Option Int) (e : ApiError) :
    (runPrompt s p sys m nstream nlog cont cid (Except.error e)).store = s := by
  unfold runPrompt
  cases h1 : resolve_continuation cont cid with
  | error e1 => rfl
  | ok c =>
    cases h2 : get_history s c with
    | error e2 => simp [h2]
    | ok pr => cases pr; simp [h2]

/-- C6: the Exchange Recorder is a no-op — equal store out, hence no row
appended and no backing file created, and it is total so it raises
nothing — whenever logging is suppressed or the backing file is absent. -/
theorem c6_recorder_noop (no_log : Bool) (sys : Option String)
    (p r m : String) (cid : Option Int) (s : Store)
    (h : no_log = true ∨ s.dbExists = false) :
    log no_log sys p r m cid s = s := by
  rcases h with h | h <;> cases no_log <;> simp_all [log]

/-- C6 witness: the theorem with logging suppressed on a store whose file
exists. -/
theorem c6_recorder_noop_witness :
    (true = true ∨ emptyStore.dbExists = false) ∧
      log true (some "s") "p" "r" "m" none emptyStore = emptyStore :=
  ⟨Or.inl rfl, c6_recorder_noop true (some "s") "p" "r" "m" none emptyStore (Or.inl rfl)⟩

/-- C8: a continue-explicit request made while the backing file does not
exist fails with `LoggingRequired`, leaves the store untouched, and makes
no remote call. -/
theorem c8_explicit_requires_store (s : Store) (p : String) (sys m : Option String)
    (nstream nlog : Bool) (cid : Int) (api : Except ApiError String)
    (h : s.dbExists = false) :
    runPrompt s p sys m nstream nlog false (some cid) api
      = ⟨Except.error CliError.loggingRequired, s, none⟩ := by
  simp [runPrompt, resolve_continuation, get_history, h]

/-- C8 witness: the theorem on a store with no backing file, chat id 7. -/
theorem c8_explicit_requires_store_witness :
    (Store.mk false []).dbExists = false ∧
      runPrompt ⟨false, []⟩ "hi" none none false false false (some 7) (Except.ok "resp")
        = ⟨Except.error CliError.loggingRequired, ⟨false, []⟩, none⟩ :=
  ⟨rfl, c8_explicit_requires_store ⟨false, []⟩ "hi" none none false false 7
    (Except.ok "resp") rfl⟩

/-- When every history entry carries a non-empty system string, the replay
loop emits exactly the per-exchange triple system, user, assistant. -/
theorem historyMessages_eq_bind (history : List Row)
    (hsys : ∀ e ∈ history, ∃ s, e.system = some s ∧ s ≠ "") :
    historyMessages history
      = history.flatMap (fun e =>
          [⟨"system", e.system.getD ""⟩, ⟨"user", e.prompt⟩,
           ⟨"assistant", e.response⟩]) := by
  induction history with
  | nil => rfl
  | cons e rest ih =>
    obtain ⟨se, hse, hne⟩ := hsys e (List.mem_cons_self e rest)
    have ih' := ih (fun x hx => hsys x (List.mem_cons_of_mem e hx))
    simp [historyMessages, systemMessages, hse, hne, ih']

/-- The replayed triples contribute three messages per exchange. -/
theorem flatMap_triple_length (l : List Row) :
    (l.flatMap (fun e =>
        [(⟨"system", e.system.getD ""⟩ : Message), ⟨"user", e.prompt⟩,
         ⟨"assistant", e.response⟩])).length = 3 * l.length := by
  induction l with
  | nil => rfl
  | cons e rest ih =>
    simp only [List.flatMap_cons, List.length_append, List.length_cons,
      List.length_nil, ih]
    omega

/-- C2: for a history of length `H` in which every exchange has a
non-empty system and a non-empty response, and a non-empty new system and
new prompt, the Message Builder emits per prior exchange in order its
system, user (prompt) and assistant (response) messages, then the new
system message, then the new user message — `3 * H + 2` messages. -/
theorem c2_message_builder_shape (history : List Row) (ns p : String)
    (hsys : ∀ e ∈ history, ∃ s, e.system = some s ∧ s ≠ "")
    (hresp : ∀ e ∈ history, e.response ≠ "")
    (hns : ns ≠ "") (hp : p ≠ "") :
    build_messages history (some ns) p
      = history.flatMap (fun e =>
          [⟨"system", e.system.getD ""⟩, ⟨"user", e.prompt⟩,
           ⟨"assistant", e.response⟩])
        ++ [⟨"system", ns⟩, ⟨"user", p⟩]
    ∧ (build_messages history (some ns) p).length = 3 * history.length + 2 := by
  have hb := historyMessages_eq_bind history hsys
  have hshape : build_messages history (some ns) p
      = history.flatMap (fun e =>
          [⟨"system", e.system.getD ""⟩, ⟨"user", e.prompt⟩,
           ⟨"assistant", e.response⟩])
        ++ [⟨"system", ns⟩, ⟨"user", p⟩] := by
    simp [build_messages, hb, systemMessages, hns]
  refine ⟨hshape, ?_⟩
  rw [hshape]
  simp [flatMap_triple_length history]

/-- C2 witness: the theorem at a one-exchange history with system "s0",
new system "s1" and new prompt "q". -/
theorem c2_message_builder_shape_witness :
    (∀ e ∈ [Row.mk 1 none (some "s0") "p0" "r0" "m0"],
        ∃ s, e.system = some s ∧ s ≠ "") ∧
    (∀ e ∈ [Row.mk 1 none (some "s0") "p0" "r0" "m0"], e.response ≠ "") ∧
    ("s1" : String) ≠ "" ∧ ("q" : String) ≠ "" ∧
    (build_messages [Row.mk 1 none (some "s0") "p0" "r0" "m0"] (some "s1") "q"
        = [⟨"system", "s0"⟩, ⟨"user", "p0"⟩, ⟨"assistant", "r0"⟩,
           ⟨"system", "s1"⟩, ⟨"user", "q"⟩]
      ∧ (build_messages [Row.mk 1 none (some "s0") "p0" "r0" "m0"]
          (some "s1") "q").length = 3 * 1 + 2) := by
  refine ⟨by decide, by decide, by decide, by decide, ?_⟩
  have h := c2_message_builder_shape [Row.mk 1 none (some "s0") "p0" "r0" "m0"]
    "s1" "q" (by decide) (by decide) (by decide) (by decide)
  simpa using h

/-- C4: for a store whose rows carry pairwise distinct ids (the Log Store
invariant: `id` is unique), `exchangesFor X` contains a row exactly when
that row is in the store and its own `id` equals `X` (the anchor) or its
`chat_id` field equals `X`; the result is strictly ascending in `id`, so
each matching row — the anchor included — appears exactly once and in
ascending order. -/
theorem c4_exchangesFor_exact (s : Store) (X : Int)
    (hids : s.rows.Pairwise fun a b => a.id ≠ b.id) :
    (∀ r : Row, r ∈ exchangesFor s X
        ↔ r ∈ s.rows ∧ (r.id = X ∨ r.chat_id = some X))
    ∧ (exchangesFor s X).Pairwise fun a b => a.id < b.id := by
  have hperm : List.Perm (exchangesFor s X)
      (s.rows.filter fun r => decide (r.id = X ∨ r.chat_id = some X)) :=
    List.perm_insertionSort rowLe _
  constructor
  · intro r
    rw [hperm.mem_iff, List.mem_filter]
    simp
  · have hsorted : List.Sorted rowLe (exchangesFor s X) :=
      List.sorted_insertionSort rowLe _
    have hne : (exchangesFor s X).Pairwise fun a b => a.id ≠ b.id := by
      refine (hperm.pairwise_iff fun h => h.symm).mpr ?_
      exact hids.filter _
    revert hsorted hne
    generalize exchangesFor s X = l
    intro hsorted hne
    induction l with
    | nil => exact List.Pairwise.nil
    | cons a t ih =>
      rw [List.sorted_cons] at hsorted
      rw [List.pairwise_cons] at hne ⊢
      exact ⟨fun b hb => lt_of_le_of_ne (hsorted.1 b hb) (hne.1 b hb),
        ih hsorted.2 hne.2⟩

/-- C4 witness: the theorem on the two-exchange conversation of the spec
scenario (anchor id 5, follow-up id 6 with `chat_id = 5`) plus an
unrelated exchange id 7, queried at `X = 5`, instantiated at the
follow-up row. -/
theorem c4_exchangesFor_exact_witness :
    ((Store.mk true [⟨5, none, none, "a", "ra", "m"⟩,
        ⟨6, some 5, none, "b", "rb", "m"⟩,
        ⟨7, none, none, "c", "rc", "m"⟩]).rows.Pairwise
      fun a b => a.id ≠ b.id) ∧
    ((⟨6, some 5, none, "b", "rb", "m"⟩ : Row)
        ∈ exchangesFor ⟨true, [⟨5, none, none, "a", "ra", "m"⟩,
            ⟨6, some 5, none, "b", "rb", "m"⟩,
            ⟨7, none, none, "c", "rc", "m"⟩]⟩ 5
      ↔ (⟨6, some 5, none, "b", "rb", "m"⟩ : Row)
          ∈ (Store.mk true [⟨5, none, none, "a", "ra", "m"⟩,
              ⟨6, some 5, none, "b", "rb", "m"⟩,
              ⟨7, none, none, "c", "rc", "m"⟩]).rows
        ∧ ((6 : Int) = 5 ∨ (some 5 : Option Int) = some 5)) ∧
    (exchangesFor ⟨true, [⟨5, none, none, "a", "ra", "m"⟩,
        ⟨6, some 5, none, "b", "rb", "m"⟩,
        ⟨7, none, none, "c", "rc", "m"⟩]⟩ 5).Pairwise
      fun a b => a.id < b.id :=
  ⟨by decide,
    (c4_exchangesFor_exact ⟨true, [⟨5, none, none, "a", "ra", "m"⟩,
        ⟨6, some 5, none, "b", "rb", "m"⟩,
        ⟨7, none, none, "c", "rc", "m"⟩]⟩ 5 (by decide)).1
      ⟨6, some 5, none, "b", "rb", "m"⟩,
    (c4_exchangesFor_exact ⟨true, [⟨5, none, none, "a", "ra", "m"⟩,
        ⟨6, some 5, none, "b", "rb", "m"⟩,
        ⟨7, none, none, "c", "rc", "m"⟩]⟩ 5 (by decide)).2⟩

theorem maxId_nonneg (l : List Row) : 0 ≤ maxId l := by
  induction l with
  | nil => exact le_refl 0
  | cons r rs ih => exact le_trans ih (le_max_right _ _)

theorem le_maxId (l : List Row) (r : Row) (h : r ∈ l) : r.id ≤ maxId l := by
  induction l with
  | nil => cases h
  | cons a t ih =>
    rcases List.mem_cons.mp h with h | h
    · subst h; exact le_max_left _ _
    · exact le_trans (ih h) (le_max_right _ _)

theorem maxId_append (l1 l2 : List Row) :
    maxId (l1 ++ l2) = max (maxId l1) (maxId l2) := by
  induction l1 with
  | nil =>
    simp only [List.nil_append, maxId]
    exact (max_eq_right (maxId_nonneg l2)).symm
  | cons x t ih =>
    show max x.id (maxId (t ++ l2)) = max (max x.id (maxId t)) (maxId l2)
    rw [ih, max_assoc]

/-- Inserting an element bounded above by `r` into a list that ends with
`r` keeps `r` last. -/
theorem orderedInsert_concat (a r : Row) (t : List Row) (h : rowLe a r) :
    List.orderedInsert rowLe a (t ++ [r])
      = List.orderedInsert rowLe a t ++ [r] := by
  induction t with
  | nil => simp [List.orderedInsert, h]
  | cons x t ih =>
    by_cases hx : rowLe a x
    · simp [List.orderedInsert, hx]
    · simp only [List.cons_append, List.orderedInsert, if_neg hx]
      exact congrArg (fun l => x :: l) ih

/-- Sorting a list that ends with an upper bound keeps that bound last. -/
theorem sortById_concat (l : List Row) (r : Row) (h : ∀ a ∈ l, rowLe a r) :
    sortById (l ++ [r]) = sortById l ++ [r] := by
  induction l with
  | nil => rfl
  | cons x t ih =>
    have hx : rowLe x r := h x (List.mem_cons_self x t)
    have ih' := ih (fun a ha => h a (List.mem_cons_of_mem _ ha))
    simp only [List.cons_append, sortById, List.insertionSort, List.append_eq]
      at ih' ⊢
    rw [ih', orderedInsert_concat x r _ hx]

/-- After one `append`, the most recent conversation is read off the row
just inserted: its `chat_id` when truthy, else its fresh `id`. -/
theorem mostRecent_insertRow (s : Store) (c : Option Int) (sys : Option String)
    (p resp m : String) :
    mostRecentConversation (insertRow s c sys p resp m)
      = some (orFalsy c (nextId s.rows)) := by
  have h : ∀ a ∈ s.rows,
      rowLe a ⟨nextId s.rows, c, sys, p, resp, m⟩ := by
    intro a ha
    have hle := le_maxId s.rows a ha
    simp only [rowLe, nextId]
    omega
  unfold mostRecentConversation insertRow
  rw [show ({ s with rows := s.rows ++
      [⟨nextId s.rows, c, sys, p, resp, m⟩] } : Store).rows
    = s.rows ++ [⟨nextId s.rows, c, sys, p, resp, m⟩] from rfl]
  rw [sortById_concat s.rows _ h, List.getLast?_concat]

theorem maxId_insertRow (s : Store) (c : Option Int) (sys : Option String)
    (p resp m : String) :
    maxId (insertRow s c sys p resp m).rows = maxId s.rows + 1 := by
  have h0 := maxId_nonneg s.rows
  have heq : maxId (insertRow s c sys p resp m).rows
      = max (maxId s.rows) (maxId [⟨nextId s.rows, c, sys, p, resp, m⟩]) :=
    maxId_append s.rows _
  rw [heq]
  show max (maxId s.rows) (max (nextId s.rows) 0) = maxId s.rows + 1
  simp only [nextId]
  rw [max_eq_left (show (0 : Int) ≤ maxId s.rows + 1 by omega)]
  exact max_eq_right (by omega)

theorem appendAll_cons (s : Store) (d : ExchangeData) (xs : List ExchangeData) :
    appendAll s (d :: xs)
      = appendAll (insertRow s none d.system d.prompt d.response d.model) xs :=
  rfl

/-- After appending a non-empty batch of ungrouped exchanges, the most
recent conversation is the id handed to the last of them. -/
theorem mostRecent_appendAll (xs : List ExchangeData) (s : Store) (h : xs ≠ []) :
    mostRecentConversation (appendAll s xs)
      = some (maxId s.rows + xs.length) := by
  induction xs generalizing s with
  | nil => cases h rfl
  | cons d t ih =>
    rw [appendAll_cons]
    cases t with
    | nil =>
      show mostRecentConversation (insertRow s none d.system d.prompt d.response d.model) = _
      rw [mostRecent_insertRow]
      simp only [orFalsy, nextId, List.length_cons, List.length_nil]
      norm_num
    | cons d2 t2 =>
      rw [ih _ (by simp), maxId_insertRow]
      congr 1
      simp only [List.length_cons]
      push_cast
      ring

/-- The last row of a non-empty batch of appended exchanges carries id
`maxId + length`. -/
theorem appendAll_getLast_id (xs : List ExchangeData) (s : Store) (h : xs ≠ []) :
    ∃ last, (appendAll s xs).rows.getLast? = some last
      ∧ last.id = maxId s.rows + xs.length := by
  induction xs generalizing s with
  | nil => cases h rfl
  | cons d t ih =>
    rw [appendAll_cons]
    cases t with
    | nil =>
      refine ⟨⟨nextId s.rows, none, d.system, d.prompt, d.response, d.model⟩, ?_, ?_⟩
      · show (s.rows ++ [_]).getLast? = _
        exact List.getLast?_concat _
      · simp only [nextId, List.length_cons, List.length_nil]
        norm_num
    | cons d2 t2 =>
      obtain ⟨last, h1, h2⟩ := ih (insertRow s none d.system d.prompt d.response d.model) (by simp)
      refine ⟨last, h1, ?_⟩
      rw [h2, maxId_insertRow]
      simp only [List.length_cons]
      push_cast
      ring

/-- C7: appending `N` exchanges with no explicit conversation grouping to
a fresh store makes `mostRecentConversation` return the id of the last
appended exchange, namely `N`; on the empty store it returns `None`. -/
theorem c7_most_recent_conversation (xs : List ExchangeData) :
    (mostRecentConversation (appendAll emptyStore xs)
        = if xs.length = 0 then none else some (xs.length : Int))
    ∧ ((appendAll emptyStore xs).rows.getLast?.map Row.id
        = if xs.length = 0 then none else some (xs.length : Int)) := by
  cases xs with
  | nil => exact ⟨rfl, rfl⟩
  | cons d t =>
    constructor
    · rw [mostRecent_appendAll _ _ (by simp)]
      simp [emptyStore, maxId]
    · obtain ⟨last, h1, h2⟩ := appendAll_getLast_id (d :: t) emptyStore (by simp)
      rw [h1, Option.map_some', h2]
      simp [emptyStore, maxId]

/-- C9 counterexample: a stored exchange whose `model` column is the empty
string (reachable: an explicitly requested empty model string is logged
as-is).  With non-empty resolved history and no requested model, the model
sent to the remote call is not the model value of the last exchange —
Python `history_model or DEFAULT_MODEL` treats `""` as absent (cli.py
line 138), so the built-in default is used instead. -/
theorem c9_counterexample :
    ((runPrompt ⟨true, [⟨1, none, none, "p", "r", ""⟩]⟩ "q" none none
        false false false (some 1) (Except.ok "resp")).call.map Prod.fst)
      ≠ some "" := by decide

/-- C9 (amended): with no explicitly requested model, the model sent to
the remote call is the model value of the last exchange of the resolved
history when that value is non-empty, and the built-in default model when
the history is empty. -/
theorem c9_model_default (s : Store) (p content : String) (sys : Option String)
    (nstream nlog : Bool) (cid cid2 : Option Int) (hist : List Row)
    (hgh : get_history s cid = Except.ok (cid2, hist)) :
    (hist = [] →
      (runPrompt s p sys none nstream nlog false cid
          (Except.ok content)).call.map Prod.fst = some DEFAULT_MODEL)
    ∧ (∀ last, hist.getLast? = some last → last.model ≠ "" →
        (runPrompt s p sys none nstream nlog false cid
            (Except.ok content)).call.map Prod.fst = some last.model) := by
  have hcall : (runPrompt s p sys none nstream nlog false cid
      (Except.ok content)).call
      = some (choose_model none hist, build_messages hist sys p) := by
    cases nstream <;> simp [runPrompt, resolve_continuation, hgh]
  constructor
  · intro h
    rw [hcall]
    simp [choose_model, history_model, h]
  · intro last hlast hne
    rw [hcall]
    simp [choose_model, history_model, hlast, hne]

/-- C9 witness: one prior exchange recorded with model "davinci"; the new
call reuses "davinci". -/
theorem c9_model_default_witness :
    get_history ⟨true, [⟨1, none, none, "p", "r", "davinci"⟩]⟩ (some 1)
      = Except.ok (some 1, [⟨1, none, none, "p", "r", "davinci"⟩])
    ∧ (runPrompt ⟨true, [⟨1, none, none, "p", "r", "davinci"⟩]⟩ "q" none none
        false false false (some 1) (Except.ok "resp")).call.map Prod.fst
      = some "davinci" :=
  ⟨by decide,
    (c9_model_default ⟨true, [⟨1, none, none, "p", "r", "davinci"⟩]⟩ "q" "resp"
        none false false (some 1) (some 1) [⟨1, none, none, "p", "r", "davinci"⟩]
        (by decide)).2
      ⟨1, none, none, "p", "r", "davinci"⟩ (by decide) (by decide)⟩

/-- C10 counterexample: the identifier `-1` matches no stored exchange,
the backing file exists, yet the History Resolver does not return
`(some (-1), [])` — cli.py line 453 treats `-1` as the
continue-most-recent sentinel, so `--chat -1` resolves to the most recent
conversation instead. -/
theorem c10_counterexample :
    get_history ⟨true, [⟨1, none, none, "p", "r", "m"⟩]⟩ (some (-1))
      ≠ Except.ok (some (-1), []) := by decide

/-- C10 (amended): for a continue-explicit request whose identifier is not
the reserved sentinel `-1` and matches no stored exchange, provided the
backing file exists, the resolver succeeds with `(some id, [])`, and the
exchange recorded after a successful call is tagged with that identifier
as its `chat_id`. -/
theorem c10_unmatched_explicit_id (s : Store) (p content : String)
    (sys model : Option String) (nstream : Bool) (cid : Int)
    (hdb : s.dbExists = true) (hcid : cid ≠ -1)
    (hnomatch : ∀ r ∈ s.rows, r.id ≠ cid ∧ r.chat_id ≠ some cid) :
    get_history s (some cid) = Except.ok (some cid, [])
    ∧ ((runPrompt s p sys model nstream false false (some cid)
          (Except.ok content)).store.rows.getLast?).map Row.chat_id
        = some (some cid) := by
  have hfil : s.rows.filter
      (fun r => decide (r.id = cid ∨ r.chat_id = some cid)) = [] := by
    rw [List.filter_eq_nil_iff]
    intro a ha
    simp [(hnomatch a ha).1, (hnomatch a ha).2]
  have hex : exchangesFor s cid = [] := by
    unfold exchangesFor
    rw [hfil]
    rfl
  have hgh : get_history s (some cid) = Except.ok (some cid, []) := by
    simp [get_history, hdb, hcid, hex]
  refine ⟨hgh, ?_⟩
  have hrun : (runPrompt s p sys model nstream false false (some cid)
      (Except.ok content)).store
      = log false sys p content (choose_model model []) (some cid) s := by
    cases nstream <;> simp [runPrompt, resolve_continuation, hgh]
  rw [hrun]
  simp [log, hdb, insertRow, List.getLast?_concat]

/-- C10 witness: a store holding only exchange id 1, queried with the
unmatched id 5; the resolver yields `(some 5, [])` and the new exchange is
tagged `chat_id = 5`. -/
theorem c10_unmatched_explicit_id_witness :
    (Store.mk true [⟨1, none, none, "p", "r", "m"⟩]).dbExists = true
    ∧ (5 : Int) ≠ -1
    ∧ (∀ r ∈ (Store.mk true [⟨1, none, none, "p", "r", "m"⟩]).rows,
        r.id ≠ 5 ∧ r.chat_id ≠ some 5)
    ∧ (get_history ⟨true, [⟨1, none, none, "p", "r", "m"⟩]⟩ (some 5)
          = Except.ok (some 5, [])
      ∧ ((runPrompt ⟨true, [⟨1, none, none, "p", "r", "m"⟩]⟩ "q" none none
            false false false (some 5)
            (Except.ok "resp")).store.rows.getLast?).map Row.chat_id
          = some (some 5)) :=
  ⟨rfl, by decide, by decide,
    c10_unmatched_explicit_id ⟨true, [⟨1, none, none, "p", "r", "m"⟩]⟩ "q" "resp"
      none none false 5 rfl (by decide) (by decide)⟩
